import Mathlib

/-!
Shallow embedding of the LibraryManagementSystem Django app
(models.py, serializers.py, views.py) for checking the specification
claims about the loan policy engine, validators and authorization.

Dates are modelled as integers (days); `today` stands for
timezone.now().date() and is passed explicitly.  Repository state is a
record of lists; Django querysets become list filters.  Serializer
validators become functions returning `Except VError`.
-/

namespace LibraryMS

/-- Calendar dates, modelled as integers (day numbers). -/
abbrev Date := Int

/-- BookCopy.COPY_STATUS from models.py. -/
inductive CopyStatus
  | available
  | on_loan
  | maintenance
  | lost
deriving DecidableEq

/-- BookCopy model (models.py): the fields the claims depend on.
`book` is the owning Book primary key. -/
structure BookCopy where
  id : Nat
  book : Nat
  copy_id : String
  status : CopyStatus
deriving DecidableEq

/-- Loan model (models.py): book_copy and member are foreign keys,
return_date is nullable. -/
structure Loan where
  id : Nat
  book_copy : Nat
  member : Nat
  loan_date : Date
  due_date : Date
  return_date : Option Date
deriving DecidableEq

/-- Validation-error taxonomy of the spec, each naming the offending
field (serializers raise ValidationError keyed by field name). -/
inductive VError
  | futureDate (field : String)
  | ordering (field : String)
  | availability (field : String)
  | quotaExceeded (field : String)
  | format (field : String)
  | conflict (field : String)
  | notFound (field : String)
deriving DecidableEq

/-- Repository state: the persisted BookCopy and Loan rows plus the
set of existing Member primary keys. -/
structure RepoState where
  copies : List BookCopy
  members : List Nat
  loans : List Loan
deriving DecidableEq

/-- BookCopy.objects.get(pk) as a list lookup. -/
def findCopy (s : RepoState) (cid : Nat) : Option BookCopy :=
  s.copies.find? (fun c => c.id == cid)

/-- Loan.objects.get(pk) as a list lookup. -/
def findLoan (s : RepoState) (lid : Nat) : Option Loan :=
  s.loans.find? (fun l => l.id == lid)

/-- Loan.objects.filter(member=m, return_date__isnull=True).count()
from LoanSerializer.validate. -/
def openLoanCount (s : RepoState) (m : Nat) : Nat :=
  (s.loans.filter (fun l => l.member == m && l.return_date == (none : Option Date))).length

/-- Overwrite the status of every stored copy with the given pk. -/
def setCopyStatus (s : RepoState) (cid : Nat) (st : CopyStatus) : RepoState :=
  { s with copies := s.copies.map (fun c => if c.id == cid then { c with status := st } else c) }

/-- LoanSerializer.validate_loan_date: loan_date may not be in the future. -/
def validate_loan_date (today : Date) (value : Date) : Except VError Date :=
  if today < value then .error (.futureDate "loan_date") else .ok value

/-- LoanSerializer.validate_due_date: compares against the loan_date
present in the raw request payload (initial_data); when the payload
carries no loan_date the check is skipped. -/
def validate_due_date (value : Date) (initialLoanDate : Option Date) : Except VError Date :=
  match initialLoanDate with
  | some ld => if value < ld then .error (.ordering "due_date") else .ok value
  | none => .ok value

/-- LoanSerializer.validate_return_date: a present return_date may not
be in the future; a null value passes. -/
def validate_return_date (today : Date) (value : Option Date) : Except VError (Option Date) :=
  match value with
  | some v => if today < v then .error (.futureDate "return_date") else .ok value
  | none => .ok value

/-- Python truthiness test book_copy and book_copy.status != available
from LoanSerializer.validate. -/
def copyUnavailable (o : Option BookCopy) : Bool :=
  match o with
  | some bc => bc.status != CopyStatus.available
  | none => false

/-- LoanSerializer.validate: the object-level checks, in source order:
copy availability (create only), then the 5-open-loans quota (create
only).  `inst` is self.instance (none on create), `dataCopy` and
`dataMember` are the resolved values from validated data, falling back
to the instance as the source does with Python or. -/
def Loan_validate (s : RepoState) (inst : Option Loan)
    (dataCopy : Option BookCopy) (dataMember : Option Nat) : Except VError Unit :=
  let book_copy : Option BookCopy :=
    match dataCopy with
    | some bc => some bc
    | none => inst.bind (fun i => findCopy s i.book_copy)
  if copyUnavailable book_copy ∧ inst = none then
    .error (.availability "book_copy")
  else
    let member : Option Nat :=
      match dataMember with
      | some m => some m
      | none => inst.map (fun i => i.member)
    match member with
    | some m =>
      if 5 ≤ openLoanCount s m ∧ inst = none then
        .error (.quotaExceeded "member")
      else .ok ()
    | none => .ok ()

/-- Collect the error of a field validator, as DRF collects per-field
errors during to_internal_value. -/
def optErr {α : Type} (r : Except VError α) : List VError :=
  match r with
  | .ok _ => []
  | .error e => [e]

/-- A POST body for the Loan collection.  loan_date and return_date are
optional (the model supplies defaults), due_date and the two foreign
keys are required. -/
structure LoanRequest where
  book_copy : Nat
  member : Nat
  loan_date : Option Date
  due_date : Date
  return_date : Option Date
deriving DecidableEq

/-- Field-stage validation of a create payload: each supplied field is
run through its validator and errors are collected; foreign keys must
resolve.  Absent optional fields are skipped, as DRF skips fields that
fall back to model defaults. -/
def createFieldErrors (today : Date) (s : RepoState) (r : LoanRequest) : List VError :=
  (match r.loan_date with
   | some ld => optErr (validate_loan_date today ld)
   | none => []) ++
  optErr (validate_due_date r.due_date r.loan_date) ++
  optErr (validate_return_date today r.return_date) ++
  (if (findCopy s r.book_copy).isNone then [VError.notFound "book_copy"] else []) ++
  (if r.member ∈ s.members then [] else [VError.notFound "member"])

/-- The Loan row produced by a successful create: absent loan_date
falls back to the model default timezone.now. -/
def newLoanOf (today : Date) (r : LoanRequest) (nid : Nat) : Loan :=
  { id := nid, book_copy := r.book_copy, member := r.member,
    loan_date := r.loan_date.getD today, due_date := r.due_date,
    return_date := r.return_date }

/-- Modelled from the spec: the signals module of this app (imported by
apps.py ready(), but its source file is not among the provided sources).
Spec section 4.3: on the create path the engine marks the copy status as
on_loan; closeLoan flips the copy status back to available when a
return_date is set.  Loans themselves are persisted by the caller. -/
def signalsOnLoanSaved (created : Bool) (l : Loan) (s : RepoState) : RepoState :=
  if created then setCopyStatus s l.book_copy CopyStatus.on_loan
  else
    match l.return_date with
    | some _ => setCopyStatus s l.book_copy CopyStatus.available
    | none => s

/-- POST /loans/: field validators, then LoanSerializer.validate with
instance = none, then persistence plus the save signal.  Returns the
collected errors (state unchanged) or the new state. -/
def loanCreate (today : Date) (s : RepoState) (r : LoanRequest) (nid : Nat) :
    Option (List VError) × RepoState :=
  let fe := createFieldErrors today s r
  if fe = [] then
    match Loan_validate s none (findCopy s r.book_copy) (some r.member) with
    | .error e => (some [e], s)
    | .ok _ =>
      (none, signalsOnLoanSaved true (newLoanOf today r nid)
        { s with loans := s.loans ++ [newLoanOf today r nid] })
  else (some fe, s)

/-- A PATCH body for a Loan item: every field optional; for return_date,
some none is an explicit null. -/
structure LoanPatch where
  book_copy : Option Nat
  member : Option Nat
  loan_date : Option Date
  due_date : Option Date
  return_date : Option (Option Date)
deriving DecidableEq

/-- Field-stage validation of a patch payload: only supplied fields are
validated (DRF partial update skips absent fields). -/
def patchFieldErrors (today : Date) (s : RepoState) (p : LoanPatch) : List VError :=
  (match p.loan_date with
   | some ld => optErr (validate_loan_date today ld)
   | none => []) ++
  (match p.due_date with
   | some dd => optErr (validate_due_date dd p.loan_date)
   | none => []) ++
  (match p.return_date with
   | some rd => optErr (validate_return_date today rd)
   | none => []) ++
  (match p.book_copy with
   | some b => if (findCopy s b).isNone then [VError.notFound "book_copy"] else []
   | none => []) ++
  (match p.member with
   | some m => if m ∈ s.members then [] else [VError.notFound "member"]
   | none => [])

/-- The Loan row after applying a patch to an instance. -/
def patchedLoan (inst : Loan) (p : LoanPatch) : Loan :=
  { id := inst.id,
    book_copy := p.book_copy.getD inst.book_copy,
    member := p.member.getD inst.member,
    loan_date := p.loan_date.getD inst.loan_date,
    due_date := p.due_date.getD inst.due_date,
    return_date := p.return_date.getD inst.return_date }

/-- PATCH /loans/pk/: field validators, LoanSerializer.validate with
instance = the stored loan, then persistence plus the save signal. -/
def loanUpdate (today : Date) (s : RepoState) (lid : Nat) (p : LoanPatch) :
    Option (List VError) × RepoState :=
  match findLoan s lid with
  | none => (some [VError.notFound "loan"], s)
  | some inst =>
    let fe := patchFieldErrors today s p
    if fe = [] then
      match Loan_validate s (some inst) (p.book_copy.bind (findCopy s)) p.member with
      | .error e => (some [e], s)
      | .ok _ =>
        (none, signalsOnLoanSaved false (patchedLoan inst p)
          { s with loans := s.loans.map (fun l =>
              if l.id == (patchedLoan inst p).id then patchedLoan inst p else l) })
    else (some fe, s)

/-- DELETE /loans/pk/: the default ModelViewSet destroy, no extra
validation. -/
def loanDelete (s : RepoState) (lid : Nat) : Option (List VError) × RepoState :=
  match findLoan s lid with
  | none => (some [VError.notFound "loan"], s)
  | some _ => (none, { s with loans := s.loans.filter (fun l => l.id != lid) })

/-- The authenticated principal: a Member row with its is_staff flag
(views.py request.user). -/
structure Principal where
  id : Nat
  is_staff : Bool
deriving DecidableEq

/-- The LoanViewSet actions (patch is DRF partial_update). -/
inductive LoanAction
  | list
  | retrieve
  | create
  | update
  | patch
  | destroy
deriving DecidableEq

/-- The actions for which LoanViewSet.get_permissions adds IsStaff. -/
def mutatingAction (a : LoanAction) : Bool :=
  match a with
  | .create | .update | .patch | .destroy => true
  | _ => false

/-- Outcome of the permission layer: 401 or 403. -/
inductive PermError
  | authenticationRequired
  | authorization
deriving DecidableEq

/-- The permission check of LoanViewSet: IsAuthenticated always, plus
IsStaff (request.user.is_staff) on create, update, partial update and
destroy; none means the request may proceed. -/
def checkLoanPermission (p : Option Principal) (a : LoanAction) : Option PermError :=
  match p with
  | none => some .authenticationRequired
  | some pr =>
    if mutatingAction a && !pr.is_staff then some .authorization else none

/-- LoanViewSet.get_queryset: staff sees every loan, a non-staff
principal only the loans whose member is the principal. -/
def loanQueryset (p : Principal) (s : RepoState) : List Loan :=
  if p.is_staff then s.loans
  else s.loans.filter (fun l => l.member == p.id)

/-- GenreSerializer.validate_name: value.replace removing spaces must
satisfy Python isalnum, that is be non-empty and all alphanumeric
(alphanumeric is modelled by Char.isAlphanum). -/
def pyIsAlnum (l : List Char) : Bool :=
  !l.isEmpty && l.all Char.isAlphanum

/-- GenreSerializer.validate_name on the name as a character list. -/
def Genre_validate_name (value : List Char) : Except VError (List Char) :=
  if pyIsAlnum (value.filter (fun c => c != ' ')) then .ok value
  else .error (.format "name")

/-- value.split at the at-sign, last component: the suffix after the
last at-sign, the whole string when there is none. -/
def afterLastAt (l : List Char) : List Char :=
  (l.reverse.takeWhile (fun c => c != '@')).reverse

/-- MemberSerializer.validate_email: rejects unless an at-sign occurs in
the value and a dot occurs after the last at-sign. -/
def Member_validate_email (value : List Char) : Except VError (List Char) :=
  if !(value.contains '@') || !((afterLastAt value).contains '.') then
    .error (.format "email")
  else .ok value

/-- BookCopySerializer.validate: copy_id uniqueness scoped to the owning
book, excluding the record being updated; data.get falls back to the
instance field; an empty copy_id is falsy in Python and skips the
check. -/
def BookCopy_validate (s : RepoState) (inst : Option BookCopy)
    (dataCid : Option String) (dataBook : Option Nat) : Except VError Unit :=
  let cid : Option String :=
    match dataCid with
    | some v => some v
    | none => inst.map (fun i => i.copy_id)
  let bk : Option Nat :=
    match dataBook with
    | some v => some v
    | none => inst.map (fun i => i.book)
  match bk, cid with
  | some b, some c =>
    if c = "" then .ok ()
    else
      let qs : List BookCopy := s.copies.filter (fun x => x.book == b && x.copy_id == c)
      let qs2 : List BookCopy :=
        match inst with
        | some i => qs.filter (fun x => x.id != i.id)
        | none => qs
      if qs2 = [] then .ok () else .error (.conflict "copy_id")
  | _, _ => .ok ()

/-! ### Helper lemmas about the validators -/

theorem mem_optErr {α : Type} {r : Except VError α} {e : VError}
    (h : e ∈ optErr r) : r = Except.error e := by
  unfold optErr at h
  split at h
  · simp at h
  · rename_i e0 heq
    simp at h
    subst h
    rfl

theorem validate_loan_date_cases (today v : Date) :
    validate_loan_date today v = Except.ok v ∨
    validate_loan_date today v = Except.error (VError.futureDate "loan_date") := by
  unfold validate_loan_date
  by_cases hlt : today < v
  · exact Or.inr (if_pos hlt)
  · exact Or.inl (if_neg hlt)

theorem validate_due_date_cases (v : Date) (o : Option Date) :
    validate_due_date v o = Except.ok v ∨
    validate_due_date v o = Except.error (VError.ordering "due_date") := by
  unfold validate_due_date
  cases o with
  | none => exact Or.inl rfl
  | some ld =>
    by_cases hlt : v < ld
    · exact Or.inr (if_pos hlt)
    · exact Or.inl (if_neg hlt)

theorem validate_return_date_cases (today : Date) (v : Option Date) :
    validate_return_date today v = Except.ok v ∨
    validate_return_date today v = Except.error (VError.futureDate "return_date") := by
  unfold validate_return_date
  cases v with
  | none => exact Or.inl rfl
  | some d =>
    by_cases hlt : today < d
    · exact Or.inr (if_pos hlt)
    · exact Or.inl (if_neg hlt)

theorem Loan_validate_instance_ok (s : RepoState) (i : Loan)
    (dc : Option BookCopy) (dm : Option Nat) :
    Loan_validate s (some i) dc dm = Except.ok () := by
  unfold Loan_validate
  cases dm <;> simp

theorem Loan_validate_create_eq (s : RepoState) (dc : Option BookCopy) (dm : Option Nat) :
    Loan_validate s none dc dm =
      if copyUnavailable dc then Except.error (VError.availability "book_copy")
      else
        match dm with
        | some m =>
          if 5 ≤ openLoanCount s m then Except.error (VError.quotaExceeded "member")
          else Except.ok ()
        | none => Except.ok () := by
  unfold Loan_validate
  cases dc <;> cases dm <;> simp [copyUnavailable]

theorem Loan_validate_ok_count {s : RepoState} {dc : Option BookCopy} {m : Nat}
    (h : Loan_validate s none dc (some m) = Except.ok ()) :
    openLoanCount s m < 5 := by
  rw [Loan_validate_create_eq] at h
  by_cases hq : 5 ≤ openLoanCount s m
  · exfalso
    by_cases hun : copyUnavailable dc = true
    · rw [if_pos hun] at h
      exact Except.noConfusion h
    · rw [if_neg hun] at h
      simp only [if_pos hq] at h
      exact Except.noConfusion h
  · omega

theorem Loan_validate_unavailable {s : RepoState} {bc : BookCopy} (dm : Option Nat)
    (h : bc.status ≠ CopyStatus.available) :
    Loan_validate s none (some bc) dm = Except.error (VError.availability "book_copy") := by
  rw [Loan_validate_create_eq, if_pos (by simp [copyUnavailable, h])]

theorem Loan_validate_quota {s : RepoState} {bc : BookCopy} {m : Nat}
    (hav : bc.status = CopyStatus.available) (hq : 5 ≤ openLoanCount s m) :
    Loan_validate s none (some bc) (some m) = Except.error (VError.quotaExceeded "member") := by
  rw [Loan_validate_create_eq, if_neg (by simp [copyUnavailable, hav])]
  simp only [if_pos hq]

theorem Loan_validate_available_cases {s : RepoState} {bc : BookCopy} (m : Nat)
    (hav : bc.status = CopyStatus.available) :
    Loan_validate s none (some bc) (some m) = Except.ok () ∨
    Loan_validate s none (some bc) (some m) = Except.error (VError.quotaExceeded "member") := by
  rw [Loan_validate_create_eq, if_neg (by simp [copyUnavailable, hav])]
  by_cases hq : 5 ≤ openLoanCount s m
  · exact Or.inr (by simp only [if_pos hq])
  · exact Or.inl (by simp only [if_neg hq])

/-! ### Helper lemmas about the operations -/

theorem findCopy_some {s : RepoState} {cid : Nat} {bc : BookCopy}
    (h : findCopy s cid = some bc) : bc ∈ s.copies ∧ bc.id = cid := by
  unfold findCopy at h
  refine ⟨List.mem_of_find?_eq_some h, ?_⟩
  have := List.find?_some h
  simpa using this

theorem findLoan_some {s : RepoState} {lid : Nat} {l : Loan}
    (h : findLoan s lid = some l) : l ∈ s.loans ∧ l.id = lid := by
  unfold findLoan at h
  refine ⟨List.mem_of_find?_eq_some h, ?_⟩
  have := List.find?_some h
  simpa using this

theorem createFieldErrors_nil_copy {today : Date} {s : RepoState} {r : LoanRequest}
    (h : createFieldErrors today s r = []) :
    ∃ bc, findCopy s r.book_copy = some bc := by
  cases hfc : findCopy s r.book_copy with
  | some bc => exact ⟨bc, rfl⟩
  | none =>
    exfalso
    have hm : VError.notFound "book_copy" ∈ createFieldErrors today s r := by
      unfold createFieldErrors
      rw [hfc]
      simp [List.mem_append]
    rw [h] at hm
    simp at hm

theorem loanCreate_ok_spec {today : Date} {s : RepoState} {r : LoanRequest}
    {nid : Nat} {s1 : RepoState}
    (h : loanCreate today s r nid = (none, s1)) :
    createFieldErrors today s r = [] ∧
    Loan_validate s none (findCopy s r.book_copy) (some r.member) = Except.ok () ∧
    s1.loans = s.loans ++ [newLoanOf today r nid] ∧
    s1.copies = s.copies.map (fun c =>
      if c.id == r.book_copy then { c with status := CopyStatus.on_loan } else c) ∧
    s1.members = s.members := by
  unfold loanCreate at h
  by_cases hfe : createFieldErrors today s r = []
  · simp only [hfe, eq_self_iff_true, if_true] at h
    cases hv : Loan_validate s none (findCopy s r.book_copy) (some r.member) with
    | error e => rw [hv] at h; simp at h
    | ok u =>
      cases u
      rw [hv] at h
      simp only [Prod.mk.injEq] at h
      have hs1 : s1 = signalsOnLoanSaved true (newLoanOf today r nid)
          { s with loans := s.loans ++ [newLoanOf today r nid] } := h.2.symm
      subst hs1
      exact ⟨hfe, rfl, rfl, rfl, rfl⟩
  · simp [hfe] at h

theorem loanCreate_error_spec {today : Date} {s : RepoState} {r : LoanRequest}
    {nid : Nat} {es : List VError}
    (h : (loanCreate today s r nid).fst = some es) :
    (createFieldErrors today s r ≠ [] ∧ es = createFieldErrors today s r) ∨
    (createFieldErrors today s r = [] ∧ ∃ e, es = [e] ∧
      Loan_validate s none (findCopy s r.book_copy) (some r.member) = Except.error e) := by
  unfold loanCreate at h
  by_cases hfe : createFieldErrors today s r = []
  · simp only [hfe, eq_self_iff_true, if_true] at h
    cases hv : Loan_validate s none (findCopy s r.book_copy) (some r.member) with
    | error e =>
      rw [hv] at h
      simp at h
      exact Or.inr ⟨hfe, e, h.symm, rfl⟩
    | ok u => rw [hv] at h; simp at h
  · left
    refine ⟨hfe, ?_⟩
    simp [hfe] at h
    exact h.symm

theorem loanUpdate_ok_spec {today : Date} {s : RepoState} {lid : Nat}
    {p : LoanPatch} {s1 : RepoState}
    (h : loanUpdate today s lid p = (none, s1)) :
    ∃ inst, findLoan s lid = some inst ∧
      patchFieldErrors today s p = [] ∧
      s1.loans = s.loans.map (fun l =>
        if l.id == (patchedLoan inst p).id then patchedLoan inst p else l) ∧
      s1.copies = (match (patchedLoan inst p).return_date with
        | some _ => s.copies.map (fun c =>
            if c.id == (patchedLoan inst p).book_copy then
              { c with status := CopyStatus.available } else c)
        | none => s.copies) := by
  unfold loanUpdate at h
  cases hinst : findLoan s lid with
  | none => rw [hinst] at h; simp at h
  | some inst =>
    rw [hinst] at h
    by_cases hfe : patchFieldErrors today s p = []
    · simp only [hfe, eq_self_iff_true, if_true] at h
      cases hv : Loan_validate s (some inst) (p.book_copy.bind (findCopy s)) p.member with
      | error e => rw [hv] at h; simp at h
      | ok u =>
        cases u
        rw [hv] at h
        simp only [Prod.mk.injEq] at h
        have hs1 : s1 = signalsOnLoanSaved false (patchedLoan inst p)
            { s with loans := s.loans.map (fun l =>
                if l.id == (patchedLoan inst p).id then patchedLoan inst p else l) } := h.2.symm
        subst hs1
        refine ⟨inst, rfl, hfe, ?_, ?_⟩
        · unfold signalsOnLoanSaved setCopyStatus
          cases hrd : (patchedLoan inst p).return_date <;> simp [hrd]
        · unfold signalsOnLoanSaved setCopyStatus
          cases hrd : (patchedLoan inst p).return_date <;> simp [hrd]
    · simp [hfe] at h

theorem loanUpdate_error_spec {today : Date} {s : RepoState} {lid : Nat}
    {p : LoanPatch} {es : List VError}
    (h : (loanUpdate today s lid p).fst = some es) :
    es = [VError.notFound "loan"] ∨ es = patchFieldErrors today s p := by
  unfold loanUpdate at h
  cases hinst : findLoan s lid with
  | none =>
    rw [hinst] at h
    simp at h
    exact Or.inl h.symm
  | some inst =>
    rw [hinst] at h
    by_cases hfe : patchFieldErrors today s p = []
    · simp only [hfe, eq_self_iff_true, if_true] at h
      cases hv : Loan_validate s (some inst) (p.book_copy.bind (findCopy s)) p.member with
      | error e =>
        rw [Loan_validate_instance_ok] at hv
        exact Except.noConfusion hv
      | ok u => rw [hv] at h; simp at h
    · simp [hfe] at h
      exact Or.inr h.symm

/-! ### Shape of the collected field errors -/

theorem mem_createFieldErrors_cases {today : Date} {s : RepoState} {r : LoanRequest}
    {e : VError} (h : e ∈ createFieldErrors today s r) :
    e = VError.futureDate "loan_date" ∨ e = VError.ordering "due_date" ∨
    e = VError.futureDate "return_date" ∨ e = VError.notFound "book_copy" ∨
    e = VError.notFound "member" := by
  unfold createFieldErrors at h
  simp only [List.mem_append] at h
  rcases h with ((((h | h) | h) | h) | h)
  · cases hld : r.loan_date with
    | none => rw [hld] at h; simp at h
    | some ld =>
      rw [hld] at h
      have hx := mem_optErr h
      rcases validate_loan_date_cases today ld with hc | hc <;> rw [hc] at hx
      · exact Except.noConfusion hx
      · left; exact (Except.error.injEq _ _).mp hx.symm
  · have hx := mem_optErr h
    rcases validate_due_date_cases r.due_date r.loan_date with hc | hc <;> rw [hc] at hx
    · exact Except.noConfusion hx
    · right; left; exact (Except.error.injEq _ _).mp hx.symm
  · have hx := mem_optErr h
    rcases validate_return_date_cases today r.return_date with hc | hc <;> rw [hc] at hx
    · exact Except.noConfusion hx
    · right; right; left; exact (Except.error.injEq _ _).mp hx.symm
  · by_cases hn : (findCopy s r.book_copy).isNone = true
    · rw [if_pos hn] at h
      simp at h
      right; right; right; left; exact h
    · rw [if_neg hn] at h
      simp at h
  · by_cases hn : r.member ∈ s.members
    · rw [if_pos hn] at h
      simp at h
    · rw [if_neg hn] at h
      simp at h
      right; right; right; right; exact h

theorem mem_patchFieldErrors_cases {today : Date} {s : RepoState} {p : LoanPatch}
    {e : VError} (h : e ∈ patchFieldErrors today s p) :
    e = VError.futureDate "loan_date" ∨ e = VError.ordering "due_date" ∨
    e = VError.futureDate "return_date" ∨ e = VError.notFound "book_copy" ∨
    e = VError.notFound "member" := by
  unfold patchFieldErrors at h
  simp only [List.mem_append] at h
  rcases h with ((((h | h) | h) | h) | h)
  · cases hld : p.loan_date with
    | none => rw [hld] at h; simp at h
    | some ld =>
      rw [hld] at h
      have hx := mem_optErr h
      rcases validate_loan_date_cases today ld with hc | hc <;> rw [hc] at hx
      · exact Except.noConfusion hx
      · left; exact (Except.error.injEq _ _).mp hx.symm
  · cases hdd : p.due_date with
    | none => rw [hdd] at h; simp at h
    | some dd =>
      rw [hdd] at h
      have hx := mem_optErr h
      rcases validate_due_date_cases dd p.loan_date with hc | hc <;> rw [hc] at hx
      · exact Except.noConfusion hx
      · right; left; exact (Except.error.injEq _ _).mp hx.symm
  · cases hrd : p.return_date with
    | none => rw [hrd] at h; simp at h
    | some rd =>
      rw [hrd] at h
      have hx := mem_optErr h
      rcases validate_return_date_cases today rd with hc | hc <;> rw [hc] at hx
      · exact Except.noConfusion hx
      · right; right; left; exact (Except.error.injEq _ _).mp hx.symm
  · cases hbc : p.book_copy with
    | none => rw [hbc] at h; simp at h
    | some b =>
      rw [hbc] at h
      by_cases hn : (findCopy s b).isNone = true
      · simp [hn] at h
        right; right; right; left; exact h
      · simp [hn] at h
  · cases hm : p.member with
    | none => rw [hm] at h; simp at h
    | some m =>
      rw [hm] at h
      by_cases hn : m ∈ s.members
      · simp [hn] at h
      · simp [hn] at h
        right; right; right; right; exact h

theorem quota_not_mem_patchFieldErrors (today : Date) (s : RepoState) (p : LoanPatch)
    (f : String) : VError.quotaExceeded f ∉ patchFieldErrors today s p := by
  intro h
  rcases mem_patchFieldErrors_cases h with h | h | h | h | h <;> exact VError.noConfusion h

theorem ordering_mem_createFieldErrors {today : Date} {s : RepoState} {r : LoanRequest}
    {f : String} (h : VError.ordering f ∈ createFieldErrors today s r) :
    f = "due_date" ∧ ∃ ld, r.loan_date = some ld ∧ r.due_date < ld := by
  unfold createFieldErrors at h
  simp only [List.mem_append] at h
  rcases h with ((((h | h) | h) | h) | h)
  · cases hld : r.loan_date with
    | none => rw [hld] at h; simp at h
    | some ld =>
      rw [hld] at h
      have hx := mem_optErr h
      rcases validate_loan_date_cases today ld with hc | hc <;> rw [hc] at hx <;> simp at hx
  · have hx := mem_optErr h
    unfold validate_due_date at hx
    cases hld : r.loan_date with
    | none => rw [hld] at hx; exact Except.noConfusion hx
    | some ld =>
      rw [hld] at hx
      by_cases hlt : r.due_date < ld
      · simp [hlt] at hx
        exact ⟨hx.symm, ld, rfl, hlt⟩
      · simp [hlt] at hx
  · have hx := mem_optErr h
    rcases validate_return_date_cases today r.return_date with hc | hc <;> rw [hc] at hx <;>
      simp at hx
  · by_cases hn : (findCopy s r.book_copy).isNone = true
    · rw [if_pos hn] at h; simp at h
    · rw [if_neg hn] at h; simp at h
  · by_cases hn : r.member ∈ s.members
    · rw [if_pos hn] at h; simp at h
    · rw [if_neg hn] at h; simp at h

theorem ordering_mem_patchFieldErrors {today : Date} {s : RepoState} {p : LoanPatch}
    {f : String} (h : VError.ordering f ∈ patchFieldErrors today s p) :
    f = "due_date" ∧ ∃ dd ld, p.due_date = some dd ∧ p.loan_date = some ld ∧ dd < ld := by
  unfold patchFieldErrors at h
  simp only [List.mem_append] at h
  rcases h with ((((h | h) | h) | h) | h)
  · cases hld : p.loan_date with
    | none => rw [hld] at h; simp at h
    | some ld =>
      rw [hld] at h
      have hx := mem_optErr h
      rcases validate_loan_date_cases today ld with hc | hc <;> rw [hc] at hx <;> simp at hx
  · cases hdd : p.due_date with
    | none => rw [hdd] at h; simp at h
    | some dd =>
      rw [hdd] at h
      have hx := mem_optErr h
      unfold validate_due_date at hx
      cases hld : p.loan_date with
      | none => rw [hld] at hx; exact Except.noConfusion hx
      | some ld =>
        rw [hld] at hx
        by_cases hlt : dd < ld
        · simp [hlt] at hx
          exact ⟨hx.symm, dd, ld, rfl, rfl, hlt⟩
        · simp [hlt] at hx
  · cases hrd : p.return_date with
    | none => rw [hrd] at h; simp at h
    | some rd =>
      rw [hrd] at h
      have hx := mem_optErr h
      rcases validate_return_date_cases today rd with hc | hc <;> rw [hc] at hx <;> simp at hx
  · cases hbc : p.book_copy with
    | none => rw [hbc] at h; simp at h
    | some b =>
      rw [hbc] at h
      by_cases hn : (findCopy s b).isNone = true <;> simp [hn] at h
  · cases hm : p.member with
    | none => rw [hm] at h; simp at h
    | some m =>
      rw [hm] at h
      by_cases hn : m ∈ s.members <;> simp [hn] at h

theorem ordering_mem_createFieldErrors_of {today : Date} {s : RepoState} {r : LoanRequest}
    {ld : Date} (hld : r.loan_date = some ld) (hlt : r.due_date < ld) :
    VError.ordering "due_date" ∈ createFieldErrors today s r := by
  unfold createFieldErrors
  simp only [List.mem_append]
  left; left; left; right
  rw [hld]
  simp [validate_due_date, optErr, hlt]

/-! ### Claim C1 -/

/-- C1: for every successful Loan creation (create path, not update),
after the operation the referenced BookCopy has status on_loan and the
new Loan row is persisted in the repository.  The status flip is the
spec-modelled save signal; persistence and validation are from the
serializer and view sources. -/
theorem loan_create_marks_copy_and_persists
    (today : Date) (s : RepoState) (r : LoanRequest) (nid : Nat) (s1 : RepoState)
    (h : loanCreate today s r nid = (none, s1)) :
    (∃ bc ∈ s1.copies, bc.id = r.book_copy ∧ bc.status = CopyStatus.on_loan)
    ∧ (∀ bc ∈ s1.copies, bc.id = r.book_copy → bc.status = CopyStatus.on_loan)
    ∧ newLoanOf today r nid ∈ s1.loans := by
  obtain ⟨hfe, hv, hl, hc, hm⟩ := loanCreate_ok_spec h
  refine ⟨?_, ?_, ?_⟩
  · obtain ⟨bc, hbc⟩ := createFieldErrors_nil_copy hfe
    obtain ⟨hmem, hid⟩ := findCopy_some hbc
    refine ⟨{ bc with status := CopyStatus.on_loan }, ?_, hid, rfl⟩
    rw [hc]
    have hx := List.mem_map_of_mem
      (fun c => if c.id == r.book_copy then { c with status := CopyStatus.on_loan } else c) hmem
    simpa [hid] using hx
  · intro bc hbc hid
    rw [hc] at hbc
    obtain ⟨c, hcmem, hfc⟩ := List.mem_map.mp hbc
    by_cases hcc : c.id = r.book_copy
    · rw [← hfc]
      simp [hcc]
    · rw [← hfc] at hid
      simp [hcc] at hid
  · rw [hl]
    simp

def w1state : RepoState :=
  { copies := [⟨1, 1, "A", CopyStatus.available⟩], members := [7], loans := [] }

def w1req : LoanRequest := ⟨1, 7, some 0, 14, none⟩

theorem loan_create_marks_copy_and_persists_witness :
    (∃ bc ∈ (loanCreate 10 w1state w1req 100).snd.copies,
        bc.id = w1req.book_copy ∧ bc.status = CopyStatus.on_loan)
    ∧ (∀ bc ∈ (loanCreate 10 w1state w1req 100).snd.copies,
        bc.id = w1req.book_copy → bc.status = CopyStatus.on_loan)
    ∧ newLoanOf 10 w1req 100 ∈ (loanCreate 10 w1state w1req 100).snd.loans :=
  loan_create_marks_copy_and_persists 10 w1state w1req 100
    (loanCreate 10 w1state w1req 100).snd (by decide)

/-! ### Claim C4 -/

/-- C4: a new-loan create naming a member with five or more open loans
fails with QuotaExceededError on the member field leaving the state
unchanged, provided the field validators pass and the referenced copy is
available (in the source the availability check precedes the quota
check); an update is never rejected by the quota check. -/
theorem loan_quota_rejects_sixth
    (today : Date) (s : RepoState) (r : LoanRequest) (nid lid : Nat) (p : LoanPatch)
    (bc : BookCopy) :
    (createFieldErrors today s r = [] → findCopy s r.book_copy = some bc →
      bc.status = CopyStatus.available → 5 ≤ openLoanCount s r.member →
      loanCreate today s r nid = (some [VError.quotaExceeded "member"], s))
    ∧ (∀ es, (loanUpdate today s lid p).fst = some es →
        VError.quotaExceeded "member" ∉ es) := by
  constructor
  · intro hfe hfc hav hq
    have hv := @Loan_validate_quota s bc r.member hav hq
    simp [loanCreate, hfe, hfc, hv]
  · intro es h hmem
    rcases loanUpdate_error_spec h with he | he
    · subst he; simp at hmem
    · subst he; exact quota_not_mem_patchFieldErrors today s p "member" hmem

def w4state : RepoState :=
  { copies := [⟨1, 1, "A", CopyStatus.available⟩], members := [1],
    loans := [⟨1, 1, 1, 0, 7, none⟩, ⟨2, 1, 1, 0, 7, none⟩, ⟨3, 1, 1, 0, 7, none⟩,
              ⟨4, 1, 1, 0, 7, none⟩, ⟨5, 1, 1, 0, 7, none⟩] }

def w4req : LoanRequest := ⟨1, 1, some 0, 7, none⟩

def w4patch : LoanPatch := ⟨none, none, none, none, none⟩

theorem loan_quota_rejects_sixth_witness :
    loanCreate 10 w4state w4req 100 = (some [VError.quotaExceeded "member"], w4state)
    ∧ VError.quotaExceeded "member" ∉ [VError.notFound "loan"] :=
  ⟨(loan_quota_rejects_sixth 10 w4state w4req 100 99 w4patch ⟨1, 1, "A", CopyStatus.available⟩).1
      (by decide) (by decide) (by decide) (by decide),
   (loan_quota_rejects_sixth 10 w4state w4req 100 99 w4patch ⟨1, 1, "A", CopyStatus.available⟩).2
      [VError.notFound "loan"] (by decide)⟩

/-! ### Claim C5 -/

/-- C5: a new-loan create referencing a copy whose status differs from
available fails with AvailabilityError on the book_copy field and the
state is unchanged (given the field validators pass; the availability
check is the first object-level check); when the copy is available the
availability check passes, so no error result of the create names it. -/
theorem loan_availability_check
    (today : Date) (s : RepoState) (r : LoanRequest) (nid : Nat) (bc : BookCopy) :
    (createFieldErrors today s r = [] → findCopy s r.book_copy = some bc →
      bc.status ≠ CopyStatus.available →
      loanCreate today s r nid = (some [VError.availability "book_copy"], s))
    ∧ (createFieldErrors today s r = [] → findCopy s r.book_copy = some bc →
      bc.status = CopyStatus.available →
      ∀ es, (loanCreate today s r nid).fst = some es →
        VError.availability "book_copy" ∉ es) := by
  constructor
  · intro hfe hfc hne
    have hv := @Loan_validate_unavailable s bc (some r.member) hne
    simp [loanCreate, hfe, hfc, hv]
  · intro hfe hfc hav es h hmem
    rcases loanCreate_error_spec h with ⟨hne, _⟩ | ⟨_, e, hes, hv⟩
    · exact hne hfe
    · rw [hfc] at hv
      rcases Loan_validate_available_cases r.member hav with hc | hc <;> rw [hc] at hv
      · exact Except.noConfusion hv
      · subst hes
        obtain rfl : e = VError.quotaExceeded "member" := ((Except.error.injEq _ _).mp hv).symm
        simp at hmem

def w5state : RepoState :=
  { copies := [⟨1, 1, "A", CopyStatus.on_loan⟩], members := [1], loans := [] }

def w5req : LoanRequest := ⟨1, 1, some 0, 7, none⟩

theorem loan_availability_check_witness :
    loanCreate 10 w5state w5req 100 = (some [VError.availability "book_copy"], w5state)
    ∧ VError.availability "book_copy" ∉ [VError.quotaExceeded "member"] :=
  ⟨(loan_availability_check 10 w5state w5req 100 ⟨1, 1, "A", CopyStatus.on_loan⟩).1
      (by decide) (by decide) (by decide),
   (loan_availability_check 10 w4state w4req 100 ⟨1, 1, "A", CopyStatus.available⟩).2
      (by decide) (by decide) (by decide) [VError.quotaExceeded "member"] (by decide)⟩

/-! ### Claim C6 -/

/-- C6: an authenticated non-staff principal is denied with
AuthorizationError on Loan create, update, partial update and destroy;
an unauthenticated request gets AuthenticationRequiredError; a staff
principal reads every loan; a non-staff principal reads exactly the
loans whose member is the principal. -/
theorem loan_authorization (q : Principal) (s : RepoState) (a : LoanAction) :
    (q.is_staff = false → mutatingAction a = true →
      checkLoanPermission (some q) a = some PermError.authorization)
    ∧ checkLoanPermission none a = some PermError.authenticationRequired
    ∧ (q.is_staff = true → loanQueryset q s = s.loans)
    ∧ (q.is_staff = false →
        ∀ l, l ∈ loanQueryset q s ↔ l ∈ s.loans ∧ l.member = q.id) := by
  refine ⟨?_, rfl, ?_, ?_⟩
  · intro hns hma
    simp [checkLoanPermission, hns, hma]
  · intro hs
    simp [loanQueryset, hs]
  · intro hns l
    simp [loanQueryset, hns, List.mem_filter]

def w6state : RepoState :=
  { copies := [], members := [1, 2], loans := [⟨5, 1, 1, 0, 7, none⟩, ⟨6, 1, 2, 0, 7, none⟩] }

theorem loan_authorization_witness :
    checkLoanPermission (some ⟨1, false⟩) LoanAction.create = some PermError.authorization
    ∧ loanQueryset ⟨2, true⟩ w6state = w6state.loans
    ∧ ((⟨5, 1, 1, 0, 7, none⟩ : Loan) ∈ loanQueryset ⟨1, false⟩ w6state ↔
        (⟨5, 1, 1, 0, 7, none⟩ : Loan) ∈ w6state.loans ∧
        (⟨5, 1, 1, 0, 7, none⟩ : Loan).member = (⟨1, false⟩ : Principal).id) :=
  ⟨(loan_authorization ⟨1, false⟩ w6state LoanAction.create).1 rfl rfl,
   (loan_authorization ⟨2, true⟩ w6state LoanAction.create).2.2.1 rfl,
   (loan_authorization ⟨1, false⟩ w6state LoanAction.create).2.2.2 rfl ⟨5, 1, 1, 0, 7, none⟩⟩

/-! ### Claim C3 -/

def cx3s0 : RepoState :=
  { copies := [⟨1, 1, "A", CopyStatus.available⟩, ⟨2, 1, "B", CopyStatus.available⟩,
               ⟨3, 1, "C", CopyStatus.available⟩, ⟨4, 1, "D", CopyStatus.available⟩,
               ⟨5, 1, "E", CopyStatus.available⟩, ⟨6, 1, "F", CopyStatus.available⟩],
    members := [1], loans := [] }

def cx3s1 := loanCreate 10 cx3s0 ⟨6, 1, some 0, 7, some 0⟩ 101

def cx3s2 := loanCreate 10 cx3s1.snd ⟨1, 1, some 0, 7, none⟩ 102

def cx3s3 := loanCreate 10 cx3s2.snd ⟨2, 1, some 0, 7, none⟩ 103

def cx3s4 := loanCreate 10 cx3s3.snd ⟨3, 1, some 0, 7, none⟩ 104

def cx3s5 := loanCreate 10 cx3s4.snd ⟨4, 1, some 0, 7, none⟩ 105

def cx3s6 := loanCreate 10 cx3s5.snd ⟨5, 1, some 0, 7, none⟩ 106

def cx3s7 := loanUpdate 10 cx3s6.snd 101 ⟨none, none, none, none, some none⟩

/-- C3 counterexample: starting from an empty loan table, member 1 gets
one closed loan and five open loans through accepted creates, then a
partial update clears the closed loan's return_date; every step is
accepted, and the final reachable state holds 6 open loans for member 1,
exceeding the claimed invariant bound of 5. -/
theorem loan_quota_invariant_cex :
    cx3s1.fst = none ∧ cx3s2.fst = none ∧ cx3s3.fst = none ∧ cx3s4.fst = none ∧
    cx3s5.fst = none ∧ cx3s6.fst = none ∧ cx3s7.fst = none ∧
    5 < openLoanCount cx3s7.snd 1 := by decide

/-- C3 amended: the at-most-5-open-loans bound is preserved by loan
creation (the quota check fires on the create path) and by deletion, but
not by update: the quota is only checked when self.instance is absent,
so an update can push a member past the bound. -/
theorem loan_quota_create_delete_preserve
    (today : Date) (s : RepoState) (r : LoanRequest) (nid lid m : Nat) :
    (openLoanCount s m ≤ 5 → (loanCreate today s r nid).fst = none →
      openLoanCount (loanCreate today s r nid).snd m ≤ 5)
    ∧ (openLoanCount s m ≤ 5 → openLoanCount (loanDelete s lid).snd m ≤ 5) := by
  constructor
  · intro hb h
    have hpair : loanCreate today s r nid = (none, (loanCreate today s r nid).snd) := by
      rw [← h]
    obtain ⟨hfe, hv, hl, hc, hm⟩ := loanCreate_ok_spec hpair
    have hcount := Loan_validate_ok_count hv
    unfold openLoanCount at hb hcount ⊢
    rw [hl, List.filter_append, List.length_append]
    by_cases hq : ((newLoanOf today r nid).member == m &&
        (newLoanOf today r nid).return_date == (none : Option Date)) = true
    · have hmm : r.member = m := by
        have h1 := ((Bool.and_eq_true _ _).mp hq).1
        simpa using h1
      subst hmm
      rw [List.filter_cons, if_pos hq, List.filter_nil, List.length_cons, List.length_nil]
      omega
    · rw [List.filter_cons, if_neg hq, List.filter_nil, List.length_nil]
      omega
  · intro hb
    unfold loanDelete
    cases hfl : findLoan s lid with
    | none => simpa using hb
    | some l0 =>
      show ((s.loans.filter fun l => l.id != lid).filter
        (fun l => l.member == m && l.return_date == (none : Option Date))).length ≤ 5
      have hsub : List.Sublist
          ((s.loans.filter fun l => l.id != lid).filter
            (fun l => l.member == m && l.return_date == (none : Option Date)))
          (s.loans.filter (fun l => l.member == m && l.return_date == (none : Option Date))) :=
        List.Sublist.filter _ (List.filter_sublist s.loans)
      have h2 := hsub.length_le
      unfold openLoanCount at hb
      omega

def w3state : RepoState :=
  { copies := [⟨1, 1, "A", CopyStatus.available⟩], members := [1], loans := [] }

def w3req : LoanRequest := ⟨1, 1, some 0, 7, none⟩

theorem loan_quota_create_delete_preserve_witness :
    openLoanCount (loanCreate 10 w3state w3req 100).snd 1 ≤ 5
    ∧ openLoanCount (loanDelete w3state 5).snd 1 ≤ 5 :=
  ⟨(loan_quota_create_delete_preserve 10 w3state w3req 100 5 1).1 (by decide) (by decide),
   (loan_quota_create_delete_preserve 10 w3state w3req 100 5 1).2 (by decide)⟩

/-! ### Claim C2 -/

def cx2state : RepoState :=
  { copies := [⟨1, 1, "A", CopyStatus.available⟩], members := [1],
    loans := [⟨1, 1, 1, 0, 7, some 3⟩] }

def cx2patch : LoanPatch := ⟨none, none, none, none, some (some 5)⟩

/-- C2 counterexample: loan 1 already has return_date 3 (closed), yet a
close request carrying return_date 5 is accepted and overwrites the
stored return_date, instead of failing as the claim states. -/
theorem loan_close_already_closed_cex :
    (∃ l ∈ cx2state.loans, l.id = 1 ∧ l.return_date ≠ none)
    ∧ (loanUpdate 10 cx2state 1 cx2patch).fst = none
    ∧ (loanUpdate 10 cx2state 1 cx2patch).snd.loans = [⟨1, 1, 1, 0, 7, some 5⟩] := by decide

/-- C2 amended: a future returnDate is rejected; a successful close sets
the loan's return_date and flips the copy status back to available (the
flip being the spec-modelled save signal); but closing an
already-closed loan is NOT rejected: the update passes validation and
simply overwrites return_date. -/
theorem loan_close_behavior
    (today : Date) (s : RepoState) (lid : Nat) (p : LoanPatch) (inst : Loan)
    (d : Date) (s1 : RepoState) :
    (∀ v, today < v →
      validate_return_date today (some v) = Except.error (VError.futureDate "return_date"))
    ∧ (findLoan s lid = some inst → p.return_date = some (some d) → p.book_copy = none →
        loanUpdate today s lid p = (none, s1) →
        (∀ l ∈ s1.loans, l.id = lid → l.return_date = some d)
        ∧ (∀ bc ∈ s1.copies, bc.id = inst.book_copy → bc.status = CopyStatus.available))
    ∧ (findLoan s lid = some inst → inst.return_date ≠ none →
        p = ⟨none, none, none, none, some (some d)⟩ → d ≤ today →
        (loanUpdate today s lid p).fst = none) := by
  refine ⟨?_, ?_, ?_⟩
  · intro v hv
    simp [validate_return_date, hv]
  · intro hfl hrd hpbc h
    obtain ⟨inst0, hfl0, hfe, hl, hc⟩ := loanUpdate_ok_spec h
    have hinst : inst0 = inst := by
      rw [hfl0] at hfl
      exact (Option.some.injEq _ _).mp hfl
    subst hinst
    have hid0 : inst0.id = lid := (findLoan_some hfl0).2
    constructor
    · intro l hl1 hlid
      rw [hl] at hl1
      obtain ⟨c, hcmem, hfc⟩ := List.mem_map.mp hl1
      by_cases hcc : c.id = (patchedLoan inst0 p).id
      · rw [← hfc]
        simp [hcc, patchedLoan, hrd]
      · rw [← hfc] at hlid
        simp [hcc] at hlid
        exact absurd (hlid.trans hid0.symm) hcc
    · intro bc hbc1 hbid
      have hprd : (patchedLoan inst0 p).return_date = some d := by
        simp [patchedLoan, hrd]
      have hpb : (patchedLoan inst0 p).book_copy = inst0.book_copy := by
        simp [patchedLoan, hpbc]
      rw [hc, hprd] at hbc1
      obtain ⟨c, hcmem, hfc⟩ := List.mem_map.mp hbc1
      by_cases hcc : c.id = (patchedLoan inst0 p).book_copy
      · rw [← hfc]
        simp [hcc]
      · rw [← hfc] at hbid
        simp [hcc] at hbid
        exact absurd (hbid.trans hpb.symm) hcc
  · intro hfl hclosed hp hd
    subst hp
    have hfe : patchFieldErrors today s ⟨none, none, none, none, some (some d)⟩ = [] := by
      unfold patchFieldErrors
      simp [validate_return_date, optErr, not_lt.mpr hd]
    simp [loanUpdate, hfl, hfe, Loan_validate_instance_ok]

def w2state : RepoState :=
  { copies := [⟨1, 1, "A", CopyStatus.on_loan⟩], members := [1],
    loans := [⟨1, 1, 1, 0, 7, none⟩] }

def w2closedstate : RepoState :=
  { copies := [⟨1, 1, "A", CopyStatus.available⟩], members := [1],
    loans := [⟨1, 1, 1, 0, 7, some 3⟩] }

def w2patch : LoanPatch := ⟨none, none, none, none, some (some 5)⟩

theorem loan_close_behavior_witness :
    validate_return_date 10 (some 11) = Except.error (VError.futureDate "return_date")
    ∧ ((∀ l ∈ (loanUpdate 10 w2state 1 w2patch).snd.loans, l.id = 1 → l.return_date = some 5)
       ∧ (∀ bc ∈ (loanUpdate 10 w2state 1 w2patch).snd.copies,
           bc.id = (⟨1, 1, 1, 0, 7, none⟩ : Loan).book_copy →
           bc.status = CopyStatus.available))
    ∧ (loanUpdate 10 w2closedstate 1 w2patch).fst = none :=
  ⟨(loan_close_behavior 10 w2state 1 w2patch ⟨1, 1, 1, 0, 7, none⟩ 5
      (loanUpdate 10 w2state 1 w2patch).snd).1 11 (by decide),
   (loan_close_behavior 10 w2state 1 w2patch ⟨1, 1, 1, 0, 7, none⟩ 5
      (loanUpdate 10 w2state 1 w2patch).snd).2.1 (by decide) (by decide) (by decide) (by decide),
   (loan_close_behavior 10 w2closedstate 1 w2patch ⟨1, 1, 1, 0, 7, some 3⟩ 5
      (loanUpdate 10 w2closedstate 1 w2patch).snd).2.2 (by decide) (by decide) (by decide)
      (by decide)⟩

/-! ### Claim C7 -/

def cx7state : RepoState :=
  { copies := [⟨1, 1, "A", CopyStatus.on_loan⟩], members := [1],
    loans := [⟨1, 1, 1, 10, 20, none⟩] }

def cx7patch : LoanPatch := ⟨none, none, none, some 5, none⟩

/-- C7 counterexample: a partial update sets due_date to 5 on a loan
whose loan_date is 10; the mutation passes validation with no
OrderingError because the payload carries no loan_date, and the stored
loan ends up with due_date earlier than loan_date. -/
theorem loan_due_date_unchecked_cex :
    (loanUpdate 30 cx7state 1 cx7patch).fst = none
    ∧ (loanUpdate 30 cx7state 1 cx7patch).snd.loans = [⟨1, 1, 1, 10, 5, none⟩]
    ∧ ((5 : Date) < 10) := by decide

/-- C7 amended: the due_date ordering check compares only against a
loan_date supplied in the same request payload: when the payload has
both and due_date is earlier, validation fails with OrderingError on
due_date; when the payload has both and due_date is not earlier, the
check passes; a payload without loan_date is never rejected by this
check, even if the stored loan_date exceeds the new due_date. -/
theorem loan_due_date_ordering
    (today : Date) (s : RepoState) (r : LoanRequest) (p : LoanPatch) (ld : Date)
    (nid : Nat) :
    (r.loan_date = some ld → r.due_date < ld →
      ∃ es, (loanCreate today s r nid).fst = some es ∧ VError.ordering "due_date" ∈ es)
    ∧ (r.loan_date = some ld → ld ≤ r.due_date →
      VError.ordering "due_date" ∉ createFieldErrors today s r)
    ∧ (p.loan_date = none → VError.ordering "due_date" ∉ patchFieldErrors today s p) := by
  refine ⟨?_, ?_, ?_⟩
  · intro hld hlt
    have hmem := @ordering_mem_createFieldErrors_of today s r ld hld hlt
    have hne : createFieldErrors today s r ≠ [] := by
      intro h0
      rw [h0] at hmem
      simp at hmem
    refine ⟨createFieldErrors today s r, ?_, hmem⟩
    simp [loanCreate, hne]
  · intro hld hle hmem
    obtain ⟨-, ld2, hld2, hlt2⟩ := ordering_mem_createFieldErrors hmem
    rw [hld] at hld2
    obtain rfl := (Option.some.injEq _ _).mp hld2
    exact absurd hlt2 (not_lt.mpr hle)
  · intro hldnone hmem
    obtain ⟨-, dd, ld2, hdd, hld2, -⟩ := ordering_mem_patchFieldErrors hmem
    rw [hldnone] at hld2
    exact Option.noConfusion hld2

def w7state : RepoState :=
  { copies := [⟨1, 1, "A", CopyStatus.available⟩], members := [1], loans := [] }

def w7req : LoanRequest := ⟨1, 1, some 10, 3, none⟩

def w7req2 : LoanRequest := ⟨1, 1, some 0, 7, none⟩

def w7patch : LoanPatch := ⟨none, none, none, some 5, none⟩

theorem loan_due_date_ordering_witness :
    (∃ es, (loanCreate 30 w7state w7req 100).fst = some es ∧
      VError.ordering "due_date" ∈ es)
    ∧ VError.ordering "due_date" ∉ createFieldErrors 30 w7state w7req2
    ∧ VError.ordering "due_date" ∉ patchFieldErrors 30 w7state w7patch :=
  ⟨(loan_due_date_ordering 30 w7state w7req w7patch 10 100).1 rfl (by decide),
   (loan_due_date_ordering 30 w7state w7req2 w7patch 0 100).2.1 rfl (by decide),
   (loan_due_date_ordering 30 w7state w7req w7patch 10 100).2.2 rfl⟩

/-! ### Claim C8 -/

theorem contains_iff_mem (w : List Char) (c : Char) : w.contains c = true ↔ c ∈ w :=
  List.elem_iff

theorem takeWhile_append_at {xs ys : List Char} (h : ∀ c ∈ xs, c ≠ '@') :
    (xs ++ '@' :: ys).takeWhile (fun c => c != '@') = xs := by
  induction xs with
  | nil => simp
  | cons a as ih =>
    have ha : a ≠ '@' := h a (List.mem_cons_self a as)
    have has := ih (fun c hc => h c (List.mem_cons_of_mem a hc))
    simp [List.takeWhile_cons, ha, has]

theorem afterLastAt_append {l r : List Char} (h : '@' ∉ r) :
    afterLastAt (l ++ '@' :: r) = r := by
  unfold afterLastAt
  rw [List.reverse_append, List.reverse_cons, List.append_assoc, List.singleton_append]
  have hall : ∀ c ∈ r.reverse, c ≠ '@' := by
    intro c hc hq
    subst hq
    exact h (List.mem_reverse.mp hc)
  rw [takeWhile_append_at hall, List.reverse_reverse]

def cx8email : List Char := ['a', '@', 'b', '@', 'c', '.', 'c', 'o', 'm']

/-- C8 counterexample: an address with two at-signs is accepted by
validate_email, though the claim requires rejection of any string with
more than one at-sign. -/
theorem member_email_two_at_cex :
    cx8email.count '@' = 2 ∧ Member_validate_email cx8email = Except.ok cx8email :=
  ⟨by decide, rfl⟩

/-- C8 amended: email validation fails unless the value contains at
least one at-sign and the part after the LAST at-sign contains a dot;
zero at-signs or a dotless suffix after the last at-sign are rejected,
but several at-signs are accepted when that suffix has a dot. -/
theorem member_email_validation (v l r : List Char) :
    (Member_validate_email v = Except.ok v ↔ '@' ∈ v ∧ '.' ∈ afterLastAt v)
    ∧ ('@' ∉ v → Member_validate_email v = Except.error (VError.format "email"))
    ∧ ('@' ∉ r → afterLastAt (l ++ '@' :: r) = r)
    ∧ ('@' ∉ r → '.' ∉ r →
        Member_validate_email (l ++ '@' :: r) = Except.error (VError.format "email")) := by
  refine ⟨?_, ?_, fun h => afterLastAt_append h, ?_⟩
  · simp [Member_validate_email]
  · intro h
    simp [Member_validate_email, h]
  · intro h hdot
    have hr : afterLastAt (l ++ '@' :: r) = r := afterLastAt_append h
    simp [Member_validate_email, hr, hdot]

def w8email : List Char := ['a', '@', 'b', '.', 'c']

theorem member_email_validation_witness :
    (Member_validate_email w8email = Except.ok w8email ↔
      '@' ∈ w8email ∧ '.' ∈ afterLastAt w8email)
    ∧ Member_validate_email ['a', 'b'] = Except.error (VError.format "email")
    ∧ afterLastAt (['a'] ++ '@' :: ['b', '.', 'c']) = ['b', '.', 'c']
    ∧ Member_validate_email (['a'] ++ '@' :: ['b', 'c']) =
        Except.error (VError.format "email") :=
  ⟨(member_email_validation w8email ['a'] ['b', '.', 'c']).1,
   (member_email_validation ['a', 'b'] ['a'] ['b', '.', 'c']).2.1 (by decide),
   (member_email_validation w8email ['a'] ['b', '.', 'c']).2.2.1 (by decide),
   (member_email_validation w8email ['a'] ['b', 'c']).2.2.2 (by decide) (by decide)⟩

/-! ### Claim C9 -/

theorem BookCopy_validate_none_eq (s : RepoState) (c : String) (b : Nat) (h : c ≠ "") :
    BookCopy_validate s none (some c) (some b) =
      if s.copies.filter (fun x => x.book == b && x.copy_id == c) = [] then Except.ok ()
      else Except.error (VError.conflict "copy_id") := by
  simp [BookCopy_validate, h]

theorem BookCopy_validate_some_eq (s : RepoState) (i : BookCopy) (c : String) (b : Nat)
    (h : c ≠ "") :
    BookCopy_validate s (some i) (some c) (some b) =
      if (s.copies.filter (fun x => x.book == b && x.copy_id == c)).filter
          (fun x => x.id != i.id) = [] then Except.ok ()
      else Except.error (VError.conflict "copy_id") := by
  simp [BookCopy_validate, h]

/-- C9: BookCopy copy_id uniqueness is enforced with composite scope in
the serializer check: a create conflicts exactly when another stored
copy of the same book has the copy_id, an update additionally excludes
the record being updated, and in particular the same copy_id under a
different book raises no ConflictError. -/
theorem bookcopy_copy_id_scope (s : RepoState) (i : BookCopy) (b : Nat) (cid : String)
    (h : cid ≠ "") :
    (BookCopy_validate s none (some cid) (some b) = Except.error (VError.conflict "copy_id") ↔
      ∃ c ∈ s.copies, c.book = b ∧ c.copy_id = cid)
    ∧ (BookCopy_validate s none (some cid) (some b) = Except.ok () ↔
      ¬ ∃ c ∈ s.copies, c.book = b ∧ c.copy_id = cid)
    ∧ (BookCopy_validate s (some i) (some cid) (some b) =
        Except.error (VError.conflict "copy_id") ↔
      ∃ c ∈ s.copies, c.book = b ∧ c.copy_id = cid ∧ c.id ≠ i.id) := by
  have hex : s.copies.filter (fun x => x.book == b && x.copy_id == cid) ≠ [] ↔
      ∃ c ∈ s.copies, c.book = b ∧ c.copy_id = cid := by
    constructor
    · intro hne
      obtain ⟨c, hcf⟩ := List.exists_mem_of_ne_nil _ hne
      obtain ⟨hc, hpred⟩ := List.mem_filter.mp hcf
      have hp := (Bool.and_eq_true _ _).mp hpred
      exact ⟨c, hc, by simpa using hp.1, by simpa using hp.2⟩
    · rintro ⟨c, hc, hb2, hcid⟩ hnil
      rw [List.filter_eq_nil_iff] at hnil
      exact hnil c hc (by simp [hb2, hcid])
  refine ⟨?_, ?_, ?_⟩
  · rw [BookCopy_validate_none_eq s cid b h]
    by_cases hq : s.copies.filter (fun x => x.book == b && x.copy_id == cid) = []
    · rw [if_pos hq]
      constructor
      · intro hx; exact Except.noConfusion hx
      · intro hx; exact absurd hq (hex.mpr hx)
    · rw [if_neg hq]
      exact ⟨fun _ => hex.mp hq, fun _ => rfl⟩
  · rw [BookCopy_validate_none_eq s cid b h]
    by_cases hq : s.copies.filter (fun x => x.book == b && x.copy_id == cid) = []
    · rw [if_pos hq]
      constructor
      · intro _ hx; exact absurd hq (hex.mpr hx)
      · intro _; rfl
    · rw [if_neg hq]
      constructor
      · intro hx; exact Except.noConfusion hx
      · intro hn; exact absurd (hex.mp hq) hn
  · rw [BookCopy_validate_some_eq s i cid b h]
    by_cases hq : (s.copies.filter (fun x => x.book == b && x.copy_id == cid)).filter
        (fun x => x.id != i.id) = []
    · rw [if_pos hq]
      constructor
      · intro hx; exact Except.noConfusion hx
      · rintro ⟨c, hc, hb2, hcid, hid⟩
        exfalso
        rw [List.filter_eq_nil_iff] at hq
        refine hq c (List.mem_filter.mpr ⟨hc, by simp [hb2, hcid]⟩) ?_
        simp [hid]
    · rw [if_neg hq]
      constructor
      · intro _
        obtain ⟨c, hcf⟩ := List.exists_mem_of_ne_nil _ hq
        obtain ⟨hc1, hpred2⟩ := List.mem_filter.mp hcf
        obtain ⟨hc, hpred1⟩ := List.mem_filter.mp hc1
        have hp := (Bool.and_eq_true _ _).mp hpred1
        exact ⟨c, hc, by simpa using hp.1, by simpa using hp.2, by simpa using hpred2⟩
      · intro _; rfl

def w9state : RepoState :=
  { copies := [⟨1, 1, "X", CopyStatus.available⟩, ⟨2, 2, "X", CopyStatus.available⟩],
    members := [], loans := [] }

theorem bookcopy_copy_id_scope_witness :
    (BookCopy_validate w9state none (some "X") (some 1) =
        Except.error (VError.conflict "copy_id") ↔
      ∃ c ∈ w9state.copies, c.book = 1 ∧ c.copy_id = "X")
    ∧ (BookCopy_validate w9state none (some "X") (some 1) = Except.ok () ↔
      ¬ ∃ c ∈ w9state.copies, c.book = 1 ∧ c.copy_id = "X")
    ∧ (BookCopy_validate w9state (some ⟨1, 1, "X", CopyStatus.available⟩) (some "X")
        (some 1) = Except.error (VError.conflict "copy_id") ↔
      ∃ c ∈ w9state.copies, c.book = 1 ∧ c.copy_id = "X" ∧
        c.id ≠ (⟨1, 1, "X", CopyStatus.available⟩ : BookCopy).id) :=
  bookcopy_copy_id_scope w9state ⟨1, 1, "X", CopyStatus.available⟩ 1 "X" (by decide)

/-! ### Claim C10 -/

/-- C10: the Genre name validator accepts exactly the names that are
non-empty after removing spaces and alphanumeric in every non-space
character; all-space or empty names and names with punctuation are
rejected.  This validator is absent from the field-validator list of
the spec. -/
theorem genre_name_validation (name : List Char) :
    (Genre_validate_name name = Except.ok name ↔
      (name.filter (fun c => c != ' ') ≠ [] ∧
        ∀ c ∈ name, c ≠ ' ' → c.isAlphanum = true))
    ∧ ((∀ c ∈ name, c = ' ') → Genre_validate_name name = Except.error (VError.format "name"))
    ∧ (∀ c ∈ name, ¬ c.isAlphanum = true → c ≠ ' ' →
        Genre_validate_name name = Except.error (VError.format "name")) := by
  have hiff : pyIsAlnum (name.filter (fun c => c != ' ')) = true ↔
      (name.filter (fun c => c != ' ') ≠ [] ∧
        ∀ c ∈ name, c ≠ ' ' → c.isAlphanum = true) := by
    unfold pyIsAlnum
    rw [Bool.and_eq_true]
    constructor
    · rintro ⟨h1, h2⟩
      refine ⟨by simpa using h1, ?_⟩
      intro c hc hsp
      have hcf : c ∈ name.filter (fun c => c != ' ') :=
        List.mem_filter.mpr ⟨hc, by simp [hsp]⟩
      exact (List.all_eq_true.mp h2) c hcf
    · rintro ⟨h1, h2⟩
      refine ⟨by simpa using h1, ?_⟩
      rw [List.all_eq_true]
      intro c hcf
      obtain ⟨hc, hsp⟩ := List.mem_filter.mp hcf
      exact h2 c hc (by simpa using hsp)
  refine ⟨?_, ?_, ?_⟩
  · unfold Genre_validate_name
    by_cases hp : pyIsAlnum (name.filter (fun c => c != ' ')) = true
    · rw [if_pos hp]
      exact ⟨fun _ => hiff.mp hp, fun _ => rfl⟩
    · rw [if_neg hp]
      constructor
      · intro hx; exact Except.noConfusion hx
      · intro hh; exact absurd (hiff.mpr hh) hp
  · intro hall
    have hneg : ¬ pyIsAlnum (name.filter (fun c => c != ' ')) = true := by
      intro hp
      obtain ⟨h1, -⟩ := hiff.mp hp
      exact h1 (List.filter_eq_nil_iff.mpr (fun c hc => by simp [hall c hc]))
    unfold Genre_validate_name
    rw [if_neg hneg]
  · intro c hc hna hsp
    have hneg : ¬ pyIsAlnum (name.filter (fun c => c != ' ')) = true := by
      intro hp
      obtain ⟨-, h2⟩ := hiff.mp hp
      exact hna (h2 c hc hsp)
    unfold Genre_validate_name
    rw [if_neg hneg]

def w10name : List Char := ['S', 'c', 'i', '-', 'F', 'i']

def w10spaces : List Char := [' ', ' ']

theorem genre_name_validation_witness :
    Genre_validate_name w10spaces = Except.error (VError.format "name")
    ∧ Genre_validate_name w10name = Except.error (VError.format "name")
    ∧ (Genre_validate_name w10name = Except.ok w10name ↔
        (w10name.filter (fun c => c != ' ') ≠ [] ∧
          ∀ c ∈ w10name, c ≠ ' ' → c.isAlphanum = true)) :=
  ⟨(genre_name_validation w10spaces).2.1 (by decide),
   (genre_name_validation w10name).2.2 '-' (by decide) (by decide) (by decide),
   (genre_name_validation w10name).1⟩

end LibraryMS
